import Mathlib

/-
Verification of the garfish browser-vm proxy interceptor core
(packages/browser-vm/src/proxyInterceptor/shared.ts).

The development shallowly embeds three components:
  1. the descriptor invariant checker (verifyGetterDescriptor,
     verifySetterDescriptor, verifySetter),
  2. the identity-preserving function binder (bind, transferProps,
     buildInProps) over a small heap model of JS objects,
  3. the scoped mutation-observer tracker (observerModule:
     ProxyMutationObserver construction, disconnect, recover).

JS values are modelled by an inductive type rich enough to express the
SameValue (Object.is) distinctions the source relies on: NaN is equal to
itself, +0 and -0 are distinct.
-/

set_option maxHeartbeats 1000000

namespace Garfish

/-- Model of a JavaScript value. `num` is used for nonzero numbers; the two
zeroes and NaN get their own constructors so that structural equality on
this type coincides with the SameValue algorithm (Object.is). Objects and
functions are identified by a heap id. -/
inductive JSValue where
  | undef
  | nullV
  | boolV (b : Bool)
  | nan
  | posZero
  | negZero
  | num (n : Int)
  | str (s : String)
  | obj (id : Nat)
deriving DecidableEq, Repr

/-- Object.is (https://tc39.es/ecma262/#sec-object.is): on the modelled value
domain SameValue is exactly structural equality (NaN equals NaN, +0 and -0
differ, objects compare by identity). -/
def objectIs (a b : JSValue) : Bool := a == b

/-- Reading a possibly-absent field of a JS record: an absent field reads as
undefined. -/
def fieldGet (f : Option JSValue) : JSValue := f.getD JSValue.undef

/-- A property key: a string, or the well-known symbol Symbol.hasInstance
(the only symbol key this source uses). -/
inductive PropKey where
  | str (s : String)
  | symHasInstance
deriving DecidableEq, Repr

/-- A property descriptor record as the checker receives it from
Object.getOwnPropertyDescriptor. Each field is optional: `none` models the
field being absent from the record (the source distinguishes absence, tested
with the `in` operator, from a present-but-undefined value). -/
structure PropertyDescriptor where
  value : Option JSValue
  writable : Option Bool
  get : Option JSValue
  set : Option JSValue
  enumerable : Option Bool
  configurable : Option Bool
deriving DecidableEq, Repr

/-- isDataDescriptor from shared.ts: undefined is not a data descriptor;
otherwise test presence of a value or writable field. -/
def isDataDescriptor (desc : Option PropertyDescriptor) : Bool :=
  match desc with
  | none => false
  | some d => d.value.isSome || d.writable.isSome

/-- isAccessorDescriptor from shared.ts: undefined is not an accessor
descriptor; otherwise test presence of a get or set field. -/
def isAccessorDescriptor (desc : Option PropertyDescriptor) : Bool :=
  match desc with
  | none => false
  | some d => d.get.isSome || d.set.isSome

/-- A target object, as the descriptor checker sees it: its own properties
with their descriptors (first match wins, keys are unique on real objects). -/
abbrev JSObject := List (PropKey × PropertyDescriptor)

/-- First-match lookup in an association list keyed by property keys. -/
def lookupKey {α : Type} : List (PropKey × α) → PropKey → Option α
  | [], _ => none
  | e :: rest, k => if e.1 = k then some e.2 else lookupKey rest k

/-- Object.getOwnPropertyDescriptor on the modelled target. -/
def getOwnPropertyDescriptor (target : JSObject) (p : PropKey) : Option PropertyDescriptor :=
  lookupKey target p

/-- verifyGetterDescriptor from shared.ts (lines 14-36). The dev-only warn
call is advisory and has no effect on the verdict, so it is not modelled. -/
def verifyGetterDescriptor (target : JSObject) (p : PropKey) (newValue : JSValue) : Nat :=
  match getOwnPropertyDescriptor target p with
  | none => 0
  | some d =>
    if d.configurable = some false then
      if isDataDescriptor (some d) = true ∧ d.writable = some false then
        (if objectIs newValue (fieldGet d.value) = false then 1 else 0)
      else if isAccessorDescriptor (some d) = true ∧ fieldGet d.get = JSValue.undef then 2
      else 0
    else 0

/-- verifySetterDescriptor from shared.ts (lines 61-85). -/
def verifySetterDescriptor (target : JSObject) (p : PropKey) (newValue : JSValue) : Nat :=
  match getOwnPropertyDescriptor target p with
  | none => 0
  | some d =>
    if d.configurable = some false then
      if isDataDescriptor (some d) = true ∧ d.writable = some false then
        (if objectIs newValue (fieldGet d.value) = false then 1 else 3)
      else if isAccessorDescriptor (some d) = true ∧ fieldGet d.set = JSValue.undef then 2
      else 0
    else 0

/-- verifySetter from shared.ts (lines 38-59). proxyTarget and receiver are
object-or-undefined values, so JS truthiness on them is exactly `Option.isSome`;
the result `undefined` of the source is `none`. -/
def verifySetter (proxyTarget : Option JSObject) (target : JSObject) (p : PropKey)
    (val : JSValue) (receiver : Option JSObject) : Option Bool :=
  let verifyResult :=
    verifySetterDescriptor
      (match proxyTarget with
       | some pt => pt
       | none =>
         match receiver with
         | some r => r
         | none => target)
      p val
  if verifyResult > 0 then
    if verifyResult = 1 ∨ verifyResult = 2 then some false
    else if verifyResult = 3 then some true
    else none
  else none

/-- Verdict names used by the spec for the numeric codes of the checker. -/
abbrev Allowed : Nat := 0

/-- Verdict name for code 1. -/
abbrev RejectedValueMismatch : Nat := 1

/-- Verdict name for code 2. -/
abbrev RejectedAccessorMissing : Nat := 2

/-- Verdict name for code 3. -/
abbrev AllowedNoopWrite : Nat := 3

/-- Well-formedness of a descriptor as actually returned by the language's
Object.getOwnPropertyDescriptor: it is fully populated, and is either a data
descriptor (value and writable present, no get/set fields) or an accessor
descriptor (get and set present, possibly undefined, no value/writable
fields). -/
def DescriptorWF (d : PropertyDescriptor) : Prop :=
  (d.value.isSome = true ∧ d.writable.isSome = true ∧ d.get = none ∧ d.set = none ∧
    d.configurable.isSome = true) ∨
  (d.value = none ∧ d.writable = none ∧ d.get.isSome = true ∧ d.set.isSome = true ∧
    d.configurable.isSome = true)

instance (d : PropertyDescriptor) : Decidable (DescriptorWF d) := by
  unfold DescriptorWF
  exact inferInstance

/-- Well-formedness of whatever own descriptor a target has at one key. -/
def WfAt (t : JSObject) (p : PropKey) : Prop :=
  match getOwnPropertyDescriptor t p with
  | some d => DescriptorWF d
  | none => True

instance (t : JSObject) (p : PropKey) : Decidable (WfAt t p) := by
  unfold WfAt
  cases getOwnPropertyDescriptor t p
  · exact inferInstance
  · exact inferInstance

/-- Restatement of classifyForGet following the words of the spec and of
claim C3, for comparison with the implementation: Allowed when there is no
own descriptor or the descriptor is configurable; RejectedValueMismatch
exactly on a same-value-zero mismatch for a non-configurable non-writable
data descriptor; RejectedAccessorMissing for a non-configurable accessor
descriptor without a getter; Allowed in every other case. -/
def classifyForGetSpec (target : JSObject) (p : PropKey) (v : JSValue) : Nat :=
  match getOwnPropertyDescriptor target p with
  | none => Allowed
  | some d =>
    if d.configurable = some true then Allowed
    else if isDataDescriptor (some d) = true ∧ d.writable = some false then
      (if objectIs v (fieldGet d.value) = false then RejectedValueMismatch else Allowed)
    else if isAccessorDescriptor (some d) = true ∧ fieldGet d.get = JSValue.undef then
      RejectedAccessorMissing
    else Allowed

/-- Restatement of the set-trap translation following the words of the spec
and of claim C2: deny on RejectedValueMismatch and RejectedAccessorMissing,
report success without writing on AllowedNoopWrite, no verdict on Allowed. -/
def trapResultSpec (r : Nat) : Option Bool :=
  if r = 1 ∨ r = 2 then some false
  else if r = 3 then some true
  else none

/-- Restatement of the authority choice following the words of the spec and
of claim C2: the proxy's alternate target if one exists, else the receiver
if truthy, else the target. -/
def authoritySpec (proxyTarget receiver : Option JSObject) (target : JSObject) : JSObject :=
  match proxyTarget with
  | some pt => pt
  | none =>
    match receiver with
    | some r => r
    | none => target

/-- A concrete target carrying a non-configurable, non-writable NaN-valued
data property, used to witness the setter classification. -/
def wSetTargetNaN : JSObject :=
  [(PropKey.str "x",
    ⟨some JSValue.nan, some false, none, none, some false, some false⟩)]

/-- A concrete target carrying a non-configurable, non-writable (-0)-valued
data property, used to witness the mismatch verdict for +0 over -0. -/
def wSetTargetNegZero : JSObject :=
  [(PropKey.str "z",
    ⟨some JSValue.negZero, some false, none, none, some false, some false⟩)]

/-- A concrete target carrying a non-configurable accessor property without
a getter, used to witness the getter classification. -/
def wGetTargetAccessor : JSObject :=
  [(PropKey.str "y",
    ⟨none, none, some JSValue.undef, some (JSValue.obj 7), some false, some false⟩)]

/-- A realized own data property of an object in the heap model used by the
binder: value plus the three attribute flags (the binder never installs
accessor properties). -/
structure PropAttr where
  value : JSValue
  writable : Bool
  enumerable : Bool
  configurable : Bool
deriving DecidableEq, Repr

/-- Own-property table of one object in the binder's heap model. -/
abbrev OwnProps := List (PropKey × PropAttr)

/-- buildInProps from shared.ts (lines 108-115): makeMap over the protected
intrinsic names yields exactly this membership test. -/
def buildInProps (k : PropKey) : Bool :=
  k == PropKey.str "length" || k == PropKey.str "caller" || k == PropKey.str "callee" ||
    k == PropKey.str "arguments" || k == PropKey.str "prototype" || k == PropKey.symHasInstance

/-- Replacing the attributes of the first occurrence of a key in an
own-property table. -/
def updateProp : OwnProps → PropKey → PropAttr → OwnProps
  | [], _, _ => []
  | e :: rest, k, a => if e.1 = k then (k, a) :: rest else e :: updateProp rest k a

/-- JS assignment target[key] = v on an own data property table: an existing
writable property has its value replaced, a missing property is created with
all attributes true, and assignment to a non-writable property throws
(modelled as `none`; the source catches the throw). -/
def setAssign (o : OwnProps) (k : PropKey) (v : JSValue) : Option OwnProps :=
  match lookupKey o k with
  | some a => if a.writable then some (updateProp o k { a with value := v }) else none
  | none => some (o ++ [(k, ⟨v, true, true, true⟩)])

/-- Object.defineProperty on an own data property table: redefining a
configurable property replaces its attributes, defining a missing property
appends it, and redefining a non-configurable property throws (`none`; the
source only reaches this call after checking configurability, so the failing
branch is defensive, as in the source's second try/catch). -/
def definePropertyOwn (o : OwnProps) (k : PropKey) (a : PropAttr) : Option OwnProps :=
  match lookupKey o k with
  | some old => if old.configurable then some (updateProp o k a) else none
  | none => some (o ++ [(k, a)])

/-- The copy step of the transferProps loop (shared.ts lines 130-150): when
the source has the key, try plain assignment of the source value; on a throw
fall back to defineProperty with the source descriptor's attributes; on a
second throw skip the property (the dev warn is advisory only). -/
def transferCopy (source target : OwnProps) (key : PropKey) : OwnProps :=
  match lookupKey source key with
  | some sourceDesc =>
    match setAssign target key sourceDesc.value with
    | some t2 => t2
    | none =>
      match definePropertyOwn target key
          ⟨sourceDesc.value, sourceDesc.writable, sourceDesc.enumerable,
            sourceDesc.configurable⟩ with
      | some t2 => t2
      | none => target
  | none => target

/-- One iteration of the transferProps loop of shared.ts (lines 117-152) at
one key: skip protected intrinsics; skip when the target already holds the
key non-configurably; otherwise run the copy step. -/
def transferOne (source target : OwnProps) (key : PropKey) : OwnProps :=
  if buildInProps key = true then target
  else
    match lookupKey target key with
    | some targetDesc =>
      if targetDesc.configurable = false then target
      else transferCopy source target key
    | none => transferCopy source target key

/-- transferProps from shared.ts: fold the per-key transfer over
Reflect.ownKeys of the source. -/
def transferProps (source target : OwnProps) : OwnProps :=
  (source.map Prod.fst).foldl (fun t k => transferOne source t k) target

/-- A concrete source property table (an own enumerable static and an own
enumerable length) used to witness the property transfer. -/
def wTransferSource : OwnProps :=
  [(PropKey.str "helper", ⟨JSValue.num 42, true, true, true⟩),
   (PropKey.str "length", ⟨JSValue.num 9, true, true, true⟩)]

/-- A concrete target property table holding only a non-configurable
prototype slot, used to witness the property transfer. -/
def wTransferTarget : OwnProps :=
  [(PropKey.str "prototype", ⟨JSValue.obj 3, true, false, false⟩)]

/-! Heap model for the binder: objects are records with a prototype link and
an own-property table, allocated at increasing ids. -/

/-- One object record: prototype link (`none` models a null prototype or a
host intrinsic outside the modelled heap) and own properties. -/
structure ObjRec where
  proto : Option Nat
  props : OwnProps
deriving DecidableEq, Repr

/-- The heap: association list from ids to object records plus the next
fresh id. -/
structure Heap where
  objs : List (Nat × ObjRec)
  next : Nat
deriving DecidableEq, Repr

/-- First-match lookup by id. -/
def getAssoc {α : Type} : List (Nat × α) → Nat → Option α
  | [], _ => none
  | e :: rest, i => if e.1 = i then some e.2 else getAssoc rest i

/-- In-place replacement of the first record with a given id. -/
def setAssoc {α : Type} : List (Nat × α) → Nat → α → List (Nat × α)
  | [], _, _ => []
  | e :: rest, i, v => if e.1 = i then (i, v) :: rest else e :: setAssoc rest i v

/-- Reading an object record. -/
def Heap.get (h : Heap) (i : Nat) : Option ObjRec := getAssoc h.objs i

/-- Replacing an existing object record. -/
def Heap.set (h : Heap) (i : Nat) (r : ObjRec) : Heap := ⟨setAssoc h.objs i r, h.next⟩

/-- Allocating a fresh object. -/
def Heap.alloc (h : Heap) (r : ObjRec) : Heap × Nat := (⟨(h.next, r) :: h.objs, h.next + 1⟩, h.next)

/-- Reading a property value: an own data property's value, else undefined
(every read the binder performs resolves to an own property). -/
def Heap.getProp (h : Heap) (i : Nat) (k : PropKey) : JSValue :=
  ((((h.get i).bind (fun r => lookupKey r.props k)).map PropAttr.value).getD JSValue.undef)

/-- Value assignment obj[k] = v at heap level; every assignment the binder
performs targets a writable or missing own property, so the attribute
handling of `setAssign` is inlined with the update-or-append behaviour. -/
def assignProp (o : OwnProps) (k : PropKey) (v : JSValue) : OwnProps :=
  match lookupKey o k with
  | some a => updateProp o k { a with value := v }
  | none => o ++ [(k, ⟨v, true, true, true⟩)]

/-- Updating an existing object's own-property table in place. -/
def Heap.mapProps (h : Heap) (i : Nat) (f : OwnProps → OwnProps) : Heap :=
  match h.get i with
  | some r => h.set i ⟨r.proto, f r.props⟩
  | none => h

/-- Heap-level assignment. -/
def Heap.assign (h : Heap) (i : Nat) (k : PropKey) (v : JSValue) : Heap :=
  h.mapProps i (fun o => assignProp o k v)

/-- Heap-level Object.defineProperty (failure swallowed; the binder's only
use defines a key absent from the target, so the failing branch is dead). -/
def Heap.defineProp (h : Heap) (i : Nat) (k : PropKey) (a : PropAttr) : Heap :=
  h.mapProps i (fun o => (definePropertyOwn o k a).getD o)

/-- Heap-level Object.setPrototypeOf. -/
def Heap.setProto (h : Heap) (i : Nat) (p : Option Nat) : Heap :=
  match h.get i with
  | some r => h.set i ⟨p, r.props⟩
  | none => h

/-- JS truthiness on modelled values. -/
def truthy : JSValue → Bool
  | JSValue.undef => false
  | JSValue.nullV => false
  | JSValue.boolV b => b
  | JSValue.nan => false
  | JSValue.posZero => false
  | JSValue.negZero => false
  | JSValue.num n => !(n == 0)
  | JSValue.str s => !(s == "")
  | JSValue.obj _ => true

/-- Test for an object value. Functions are heap objects in this model, so
the source's condition isObject(op) || typeof op === 'function' holds
exactly for the values of this shape. -/
def isObjectValue : JSValue → Bool
  | JSValue.obj _ => true
  | _ => false

/-- Default own properties of a fresh function object: length, name and the
writable, non-enumerable, non-configurable prototype slot pointing at the
function's default prototype object. -/
def defaultFunProps (name : String) (protoObjId : Nat) : OwnProps :=
  [(PropKey.str "length", ⟨JSValue.posZero, false, false, true⟩),
   (PropKey.str "name", ⟨JSValue.str name, false, false, true⟩),
   (PropKey.str "prototype", ⟨JSValue.obj protoObjId, true, false, false⟩)]

/-- Result of bind: the final heap and the ids of the wrapper (bound), of
the helper function fNOP and of the fresh object installed as the wrapper's
prototype (the new fNOP() instance). -/
structure BindResult where
  heap : Heap
  boundId : Nat
  fNOPId : Nat
  boundProtoId : Nat
deriving Repr

/-- bind from shared.ts (lines 159-195), heap effects. Creating the two
function literals allocates each function object together with its default
prototype object (carrying a constructor back-reference). Then, following
the source order: bound.$native = fn; transferProps(fn, bound); if
(fn.prototype) fNOP.prototype = fn.prototype; bound.prototype = new fNOP()
(a fresh empty object whose prototype link is fNOP.prototype when that is an
object); Object.defineProperty(bound, Symbol.hasInstance, { configurable:
true, value: ... }) — the installed method's stored value is opaque here,
its behaviour is modelled by boundHasInstance. The calling behaviour of
bound itself is modelled by boundCall. -/
def bindM (h0 : Heap) (fnId : Nat) (context : JSValue) : BindResult :=
  let fNOPprotoAlloc := h0.alloc ⟨none, [(PropKey.str "constructor", ⟨JSValue.obj (h0.next + 1), true, false, true⟩)]⟩
  let fNOPprotoId := fNOPprotoAlloc.2
  let h1 := fNOPprotoAlloc.1
  let fNOPalloc := h1.alloc ⟨none, defaultFunProps "fNOP" fNOPprotoId⟩
  let fNOPid := fNOPalloc.2
  let h2 := fNOPalloc.1
  let boundProtoDefAlloc := h2.alloc ⟨none, [(PropKey.str "constructor", ⟨JSValue.obj (h2.next + 1), true, false, true⟩)]⟩
  let boundProtoDefId := boundProtoDefAlloc.2
  let h3 := boundProtoDefAlloc.1
  let boundAlloc := h3.alloc ⟨none, defaultFunProps "bound" boundProtoDefId⟩
  let boundId := boundAlloc.2
  let h4 := boundAlloc.1
  let h5 := h4.assign boundId (PropKey.str "$native") (JSValue.obj fnId)
  let fnProps := match h5.get fnId with
    | some r => r.props
    | none => []
  let h6 := h5.mapProps boundId (fun o => transferProps fnProps o)
  let fnProtoV := h6.getProp fnId (PropKey.str "prototype")
  let h7 := if truthy fnProtoV = true then h6.assign fNOPid (PropKey.str "prototype") fnProtoV else h6
  let fNOPprotoV := h7.getProp fNOPid (PropKey.str "prototype")
  let newProtoLink : Option Nat := match fNOPprotoV with
    | JSValue.obj i => some i
    | _ => none
  let protoAlloc := h7.alloc ⟨newProtoLink, []⟩
  let boundProtoId := protoAlloc.2
  let h8 := protoAlloc.1
  let h9 := h8.assign boundId (PropKey.str "prototype") (JSValue.obj boundProtoId)
  let h10 := h9.defineProp boundId PropKey.symHasInstance ⟨JSValue.undef, false, false, true⟩
  ⟨h10, boundId, fNOPid, boundProtoId⟩

/-- Behaviour of the original function fn, supplied abstractly: plain call
([[Call]] with a this value and arguments), construction ([[Construct]],
returning the new object's id), and its instanceof relation (ordinary
unless fn overrides Symbol.hasInstance). -/
structure FnSpec where
  call : Heap → JSValue → List JSValue → Heap × JSValue
  construct : Heap → List JSValue → Heap × Nat
  hasInst : Heap → JSValue → Bool

/-- handlerParams from the interceptor utils (module not part of the
analysed sources): it converts the arguments object into an argument array;
on the modelled argument lists it is the identity. -/
def handlerParams (args : List JSValue) : List JSValue := args

/-- Membership of a target id in a prototype chain, fuel-bounded (the fuel
only matters for cyclic chains, which the claims never build). -/
def protoChainContains (h : Heap) : Nat → Option Nat → Nat → Bool
  | _, none, _ => false
  | 0, some _, _ => false
  | fuel + 1, some i, target =>
    i == target || protoChainContains h fuel ((h.get i).bind ObjRec.proto) target

/-- OrdinaryHasInstance: v instanceof a function whose prototype object is
protoId walks v's prototype chain looking for protoId. -/
def ordinaryInstanceOf (h : Heap) (v : JSValue) (protoId : Nat) : Bool :=
  match v with
  | JSValue.obj i => protoChainContains h h.next ((h.get i).bind ObjRec.proto) protoId
  | _ => false

/-- The Symbol.hasInstance method installed on bound (shared.ts lines
186-191): read op = fn.prototype at call time; when op is an object (or a
function, also a heap object here) delegate to instance instanceof fn,
otherwise answer false. -/
def boundHasInstance (fnB : FnSpec) (fnId : Nat) (h : Heap) (instV : JSValue) : Bool :=
  let op := h.getProp fnId (PropKey.str "prototype")
  if isObjectValue op = true then fnB.hasInst h instV else false

/-- Invocation of bound (shared.ts lines 161-170): if this instanceof bound
(which, through the installed override, is boundHasInstance), construct fn
with the arguments, re-parent the instance onto bound.prototype (read from
the heap at call time) and return it; otherwise call fn with the invocation
context forced to the captured context. -/
def boundCall (fnB : FnSpec) (fnId boundId : Nat) (context : JSValue) (h : Heap)
    (thisV : JSValue) (args0 : List JSValue) : Heap × JSValue :=
  let args := handlerParams args0
  if boundHasInstance fnB fnId h thisV = true then
    let constructed := fnB.construct h args
    let h1 := constructed.1
    let objId := constructed.2
    let bp := h1.getProp boundId (PropKey.str "prototype")
    let h2 := h1.setProto objId (match bp with | JSValue.obj i => some i | _ => none)
    (h2, JSValue.obj objId)
  else
    fnB.call h context args

/-- Invocation of new bound(args): allocate the instance with bound.prototype
as its prototype link, run bound with it as this, and return the result when
it is an object (the construct branch of bound always returns one), else the
allocated instance. -/
def newBound (fnB : FnSpec) (fnId boundId : Nat) (context : JSValue) (h : Heap)
    (args : List JSValue) : Heap × JSValue :=
  let bp := h.getProp boundId (PropKey.str "prototype")
  let thisAlloc := h.alloc ⟨(match bp with | JSValue.obj i => some i | _ => none), []⟩
  let h1 := thisAlloc.1
  let thisId := thisAlloc.2
  let res := boundCall fnB fnId boundId context h1 (JSValue.obj thisId) args
  match res.2 with
  | JSValue.obj i => (res.1, JSValue.obj i)
  | _ => (res.1, JSValue.obj thisId)

/-- Own-property table of the original function as bind reads it. -/
def fnPropsOf (h0 : Heap) (fnId : Nat) : OwnProps :=
  match h0.get fnId with
  | some r => r.props
  | none => []

/-- The prototype link bind gives the fresh object it installs as the
wrapper's prototype: fn.prototype when that is truthy (an object id when it
is an object; a truthy primitive leaves the instance on the host Object
prototype, outside the modelled heap), else fNOP's untouched default
prototype object. -/
def bindProtoLink (v : JSValue) (fNOPprotoId : Nat) : Option Nat :=
  if truthy v = true then
    match v with
    | JSValue.obj i => some i
    | _ => none
  else some fNOPprotoId

/-- A concrete two-object heap: a function at id 0 whose prototype property
is the object at id 1. -/
def demoHeap : Heap :=
  ⟨[(0, ⟨none, [(PropKey.str "prototype", ⟨JSValue.obj 1, true, false, false⟩)]⟩),
    (1, ⟨none, []⟩)], 2⟩

/-- A concrete behaviour for the function at id 0 of demoHeap: plain calls
return undefined, construction allocates a fresh instance on the function's
prototype object (id 1), and instanceof is the ordinary prototype-chain
walk against id 1. -/
def demoFnB : FnSpec :=
  ⟨fun h _ _ => (h, JSValue.undef),
   fun h _ => h.alloc ⟨some 1, []⟩,
   fun h v => ordinaryInstanceOf h v 1⟩

/-- A concrete one-object heap: a function at id 0 with no prototype
property (an intrinsic without one, e.g. an arrow function). -/
def noProtoHeap : Heap := ⟨[(0, ⟨none, []⟩)], 1⟩

/-- A concrete behaviour whose instanceof relation holds of every value;
used to exhibit that the installed Symbol.hasInstance method refuses to
delegate when fn.prototype is not an object. -/
def alwaysTrueFnB : FnSpec :=
  ⟨fun h _ _ => (h, JSValue.undef),
   fun h _ => h.alloc ⟨none, []⟩,
   fun _ _ => true⟩

/-! The scoped mutation-observer tracker (observerModule). -/

/-- State of one sandbox's observer module: the tracked set (Set iteration
order is insertion order, so a list without duplicates), the log of
underlying MutationObserver.prototype.disconnect invocations performed so
far, and the id for the next constructed observer. -/
structure ObsState where
  observerSet : List Nat
  disconnectLog : List Nat
  nextId : Nat
deriving DecidableEq, Repr

/-- The module closure starts with an empty set (and no observer exists
yet). -/
def initObsState : ObsState := ⟨[], [], 0⟩

/-- JS Set.add: append when absent. -/
def addToSet (l : List Nat) (x : Nat) : List Nat := if x ∈ l then l else l ++ [x]

/-- The ProxyMutationObserver constructor (shared.ts lines 201-207): super
creates the underlying observer (a fresh id); unless the sandbox options
disable collection, the instance is added to the tracked set. -/
def newObserver (disableCollect : Bool) (s : ObsState) : ObsState × Nat :=
  let id := s.nextId
  (⟨if disableCollect = false then addToSet s.observerSet id else s.observerSet,
    s.disconnectLog, id + 1⟩, id)

/-- ProxyMutationObserver.disconnect (shared.ts lines 209-214): if the set
has the instance, delete it; then call the underlying disconnect (logged). -/
def disconnectObs (s : ObsState) (id : Nat) : ObsState :=
  let s1 := if id ∈ s.observerSet then ⟨s.observerSet.erase id, s.disconnectLog, s.nextId⟩ else s
  ⟨s1.observerSet, s1.disconnectLog ++ [id], s1.nextId⟩

/-- recover (shared.ts lines 217-224): call each tracked member's disconnect
(the override, which removes it from the set first — the defensive typeof
check always passes for these instances), then clear the set. Deleting the
visited element during Set.forEach does not disturb visiting the rest, so
the iteration is over the set as it stood on entry. -/
def recoverObs (s : ObsState) : ObsState :=
  let s1 := s.observerSet.foldl (fun acc id => disconnectObs acc id) s
  ⟨[], s1.disconnectLog, s1.nextId⟩

/-- Construction of n observers in sequence with the same collection
switch. -/
def createObservers (disableCollect : Bool) (s : ObsState) : Nat → ObsState
  | 0 => s
  | n + 1 => (newObserver disableCollect (createObservers disableCollect s n)).1

/-! Theorems. -/

theorem lookupKey_eq_some_mem {α : Type} (o : List (PropKey × α)) (k : PropKey) (a : α)
    (h : lookupKey o k = some a) : k ∈ o.map Prod.fst := by
  induction o with
  | nil => simp [lookupKey] at h
  | cons e rest ih =>
    by_cases he : e.1 = k
    · simp [he]
    · simp [lookupKey, he] at h
      simpa using Or.inr (ih h)

/-- C1: verifySetterDescriptor implements the case analysis of the spec:
no own descriptor, a configurable descriptor, or a data descriptor whose
writable attribute is not false yield Allowed; a non-configurable
non-writable data descriptor yields AllowedNoopWrite on a same-value-zero
match of the new value with the stored value (including NaN over NaN) and
RejectedValueMismatch otherwise (including +0 over -0); a non-configurable
accessor descriptor without a setter yields RejectedAccessorMissing
regardless of the value. -/
theorem verifySetterDescriptor_cases (t : JSObject) (p : PropKey) (v : JSValue)
    (hwf : WfAt t p) :
    (getOwnPropertyDescriptor t p = none → verifySetterDescriptor t p v = Allowed) ∧
    (∀ d, getOwnPropertyDescriptor t p = some d →
      (d.configurable = some true → verifySetterDescriptor t p v = Allowed) ∧
      (isDataDescriptor (some d) = true → d.writable = some true →
        verifySetterDescriptor t p v = Allowed) ∧
      (d.configurable = some false → isDataDescriptor (some d) = true →
        d.writable = some false →
        ((objectIs v (fieldGet d.value) = true →
            verifySetterDescriptor t p v = AllowedNoopWrite) ∧
         (objectIs v (fieldGet d.value) = false →
            verifySetterDescriptor t p v = RejectedValueMismatch))) ∧
      (d.configurable = some false → isAccessorDescriptor (some d) = true →
        fieldGet d.set = JSValue.undef →
        verifySetterDescriptor t p v = RejectedAccessorMissing)) := by
  constructor
  · intro h
    simp [verifySetterDescriptor, h]
  · intro d hd
    unfold WfAt at hwf
    rw [hd] at hwf
    refine ⟨?_, ?_, ?_, ?_⟩
    · intro hc
      simp [verifySetterDescriptor, hd, hc]
    · intro hdata hw
      rcases hwf with ⟨hv1, hw1, hg1, hs1, hc1⟩ | ⟨hv1, hw1, hg1, hs1, hc1⟩
      · have hacc : isAccessorDescriptor (some d) = false := by
          simp [isAccessorDescriptor, hg1, hs1]
        rcases Option.isSome_iff_exists.1 hc1 with ⟨b, hb⟩
        cases b
        · simp [verifySetterDescriptor, hd, hb, hw, hacc]
        · simp [verifySetterDescriptor, hd, hb]
      · exfalso
        simp [isDataDescriptor, hv1, hw1] at hdata
    · intro hc hdata hw
      constructor
      · intro hobj
        simp [verifySetterDescriptor, hd, hc, hdata, hw, hobj]
      · intro hobj
        simp [verifySetterDescriptor, hd, hc, hdata, hw, hobj]
    · intro hc hacc hs
      rcases hwf with ⟨hv1, hw1, hg1, hs1, hc1⟩ | ⟨hv1, hw1, hg1, hs1, hc1⟩
      · exfalso
        simp [isAccessorDescriptor, hg1, hs1] at hacc
      · have hdata : isDataDescriptor (some d) = false := by
          simp [isDataDescriptor, hv1, hw1]
        simp [verifySetterDescriptor, hd, hc, hdata, hacc, hs]

/-- Witness for C1: NaN written over a stored NaN in a non-configurable,
non-writable slot is a permitted no-op write, while +0 written over a stored
-0 is a value mismatch. -/
theorem verifySetterDescriptor_cases_witness :
    verifySetterDescriptor wSetTargetNaN (PropKey.str "x") JSValue.nan = AllowedNoopWrite ∧
    verifySetterDescriptor wSetTargetNegZero (PropKey.str "z") JSValue.posZero
      = RejectedValueMismatch := by
  constructor
  · exact (((verifySetterDescriptor_cases wSetTargetNaN (PropKey.str "x") JSValue.nan
      (by decide)).2
      ⟨some JSValue.nan, some false, none, none, some false, some false⟩
      (by decide)).2.2.1 rfl (by decide) rfl).1 (by decide)
  · exact (((verifySetterDescriptor_cases wSetTargetNegZero (PropKey.str "z") JSValue.posZero
      (by decide)).2
      ⟨some JSValue.negZero, some false, none, none, some false, some false⟩
      (by decide)).2.2.1 rfl (by decide) rfl).2 (by decide)

/-- C2: verifySetter classifies against the authority object (the proxy's
alternate target if present, else the truthy receiver, else the target) and
translates the verdict per the set-trap contract: 1 and 2 deny the write,
3 reports success without writing, 0 yields no verdict. -/
theorem verifySetter_trap (proxyTarget receiver : Option JSObject) (target : JSObject)
    (p : PropKey) (val : JSValue) :
    verifySetter proxyTarget target p val receiver =
      trapResultSpec (verifySetterDescriptor (authoritySpec proxyTarget receiver target) p val) := by
  unfold verifySetter trapResultSpec authoritySpec
  generalize verifySetterDescriptor
      (match proxyTarget with
       | some pt => pt
       | none => match receiver with | some r => r | none => target) p val = r
  rcases Nat.eq_zero_or_pos r with h | h
  · subst h
    simp
  · rw [if_pos h]

/-- C3: verifyGetterDescriptor coincides with the spec's classifyForGet on
every target whose own descriptor is a well-formed record: Allowed when
there is no own descriptor or it is configurable, RejectedValueMismatch
exactly when the virtual get result is not same-value-zero-equal to the
stored value of a non-configurable non-writable data descriptor,
RejectedAccessorMissing for a non-configurable getterless accessor, Allowed
otherwise. -/
theorem verifyGetterDescriptor_matches_spec (t : JSObject) (p : PropKey) (v : JSValue)
    (hwf : WfAt t p) :
    verifyGetterDescriptor t p v = classifyForGetSpec t p v := by
  unfold verifyGetterDescriptor classifyForGetSpec
  cases hd : getOwnPropertyDescriptor t p with
  | none => rfl
  | some d =>
    unfold WfAt at hwf
    rw [hd] at hwf
    rcases hwf with ⟨hv1, hw1, hg1, hs1, hc1⟩ | ⟨hv1, hw1, hg1, hs1, hc1⟩
    · have hacc : isAccessorDescriptor (some d) = false := by
        simp [isAccessorDescriptor, hg1, hs1]
      rcases Option.isSome_iff_exists.1 hc1 with ⟨b, hb⟩
      cases b
      · simp [hb, hacc]
      · simp [hb]
    · have hdata : isDataDescriptor (some d) = false := by
        simp [isDataDescriptor, hv1, hw1]
      rcases Option.isSome_iff_exists.1 hc1 with ⟨b, hb⟩
      cases b
      · simp [hb, hdata]
      · simp [hb]

/-- Witness for C3: on a concrete target with a non-configurable getterless
accessor the implementation and the spec classification agree (both report
RejectedAccessorMissing). -/
theorem verifyGetterDescriptor_matches_spec_witness :
    verifyGetterDescriptor wGetTargetAccessor (PropKey.str "y") (JSValue.num 5)
      = classifyForGetSpec wGetTargetAccessor (PropKey.str "y") (JSValue.num 5) ∧
    verifyGetterDescriptor wGetTargetAccessor (PropKey.str "y") (JSValue.num 5)
      = RejectedAccessorMissing := by
  constructor
  · exact verifyGetterDescriptor_matches_spec wGetTargetAccessor (PropKey.str "y")
      (JSValue.num 5) (by decide)
  · decide

theorem disconnectObs_log (s : ObsState) (id : Nat) :
    (disconnectObs s id).disconnectLog = s.disconnectLog ++ [id] := by
  by_cases h : id ∈ s.observerSet <;> simp [disconnectObs, h]

theorem foldl_disconnectObs_log (l : List Nat) (s : ObsState) :
    (l.foldl (fun acc id => disconnectObs acc id) s).disconnectLog = s.disconnectLog ++ l := by
  induction l generalizing s with
  | nil => simp
  | cons a l ih =>
    rw [List.foldl_cons, ih, disconnectObs_log]
    simp

theorem recoverObs_log (s : ObsState) :
    (recoverObs s).disconnectLog = s.disconnectLog ++ s.observerSet := by
  unfold recoverObs
  exact foldl_disconnectObs_log s.observerSet s

theorem recoverObs_set (s : ObsState) : (recoverObs s).observerSet = [] := rfl

theorem createObservers_init (n : Nat) :
    createObservers false initObsState n = ⟨List.range n, [], n⟩ := by
  induction n with
  | zero => rfl
  | succ n ih =>
    unfold createObservers
    rw [ih]
    simp [newObserver, addToSet, List.range_succ]

/-- C8: after recover the tracked set is empty and every tracked observer's
underlying disconnect ran exactly once: creating n observers and recovering
logs exactly n underlying disconnects, one per observer; disconnecting one
observer individually first (which removes it from the set before disposing)
leaves exactly n-1 disconnects to recovery, and even then every observer's
disposal count over the whole history is exactly one — never a double
disposal. -/
theorem recover_disposes_each_once (n : Nat) :
    ((recoverObs (createObservers false initObsState n)).observerSet = [] ∧
     (recoverObs (createObservers false initObsState n)).disconnectLog.length = n ∧
     (∀ i, i < n →
       (recoverObs (createObservers false initObsState n)).disconnectLog.count i = 1)) ∧
    (∀ i, i < n →
      (recoverObs (disconnectObs (createObservers false initObsState n) i)).observerSet = [] ∧
      (recoverObs (disconnectObs (createObservers false initObsState n) i)).disconnectLog.length -
        (disconnectObs (createObservers false initObsState n) i).disconnectLog.length = n - 1 ∧
      (∀ j, j < n →
        (recoverObs
          (disconnectObs (createObservers false initObsState n) i)).disconnectLog.count j = 1)) := by
  rw [createObservers_init]
  refine ⟨⟨rfl, ?_, ?_⟩, ?_⟩
  · rw [recoverObs_log]
    simp
  · intro i hi
    rw [recoverObs_log]
    simp only [List.nil_append]
    exact List.count_eq_one_of_mem (List.nodup_range n) (List.mem_range.2 hi)
  · intro i hi
    have hmem : i ∈ List.range n := List.mem_range.2 hi
    have hdis : disconnectObs ⟨List.range n, [], n⟩ i
        = ⟨(List.range n).erase i, [i], n⟩ := by
      simp [disconnectObs, hmem]
    have hperm : List.Perm (List.range n) (i :: (List.range n).erase i) :=
      List.perm_cons_erase hmem
    refine ⟨rfl, ?_, ?_⟩
    · rw [hdis, recoverObs_log]
      have hlen : (i :: (List.range n).erase i).length = n := by
        rw [← hperm.length_eq]
        simp
      simp only [ObsState.disconnectLog]
      have : ([i] ++ (List.range n).erase i) = i :: (List.range n).erase i := rfl
      rw [this, hlen]
      simp
    · intro j hj
      rw [hdis, recoverObs_log]
      have : ([i] ++ (List.range n).erase i) = i :: (List.range n).erase i := rfl
      simp only [ObsState.disconnectLog, ObsState.observerSet, this]
      rw [← hperm.count_eq j]
      exact List.count_eq_one_of_mem (List.nodup_range n) (List.mem_range.2 hj)

/-- Witness for C8 at n = 3: the second observer's disposal runs exactly
once even when it is disconnected individually before recovery. -/
theorem recover_disposes_each_once_witness :
    (recoverObs (disconnectObs (createObservers false initObsState 3) 1)).disconnectLog.count 1
      = 1 := by
  exact (((recover_disposes_each_once 3).2 1 (by decide)).2.2) 1 (by decide)

/-- C9: constructing an observer while the sandbox disables collection
creates the instance (a fresh observer id is handed out) but leaves the
tracked set unchanged, so a later recover performs no disposal of that
observer. -/
theorem disableCollect_not_tracked (s : ObsState)
    (hfresh1 : s.nextId ∉ s.observerSet) (hfresh2 : s.nextId ∉ s.disconnectLog) :
    (newObserver true s).1.observerSet = s.observerSet ∧
    (newObserver true s).2 = s.nextId ∧
    (newObserver true s).1.nextId = s.nextId + 1 ∧
    s.nextId ∉ (recoverObs (newObserver true s).1).disconnectLog := by
  refine ⟨rfl, rfl, rfl, ?_⟩
  rw [recoverObs_log]
  simp only [newObserver]
  intro hmem
  rcases List.mem_append.1 hmem with h | h
  · exact hfresh2 h
  · exact hfresh1 h

/-- Witness for C9: with one already-tracked observer, constructing a second
one under disableCollect leaves the set at the first observer only, and the
new observer's id never reaches the disposal log at recovery. -/
theorem disableCollect_not_tracked_witness :
    (newObserver true ⟨[0], [], 1⟩).1.observerSet = [0] ∧
    (newObserver true ⟨[0], [], 1⟩).2 = 1 ∧
    (newObserver true ⟨[0], [], 1⟩).1.nextId = 2 ∧
    (1 : Nat) ∉ (recoverObs (newObserver true ⟨[0], [], 1⟩).1).disconnectLog := by
  exact disableCollect_not_tracked ⟨[0], [], 1⟩ (by decide) (by decide)

theorem lookupKey_updateProp_self (o : OwnProps) (k : PropKey) (a : PropAttr)
    (h : (lookupKey o k).isSome = true) :
    lookupKey (updateProp o k a) k = some a := by
  induction o with
  | nil => simp [lookupKey] at h
  | cons e rest ih =>
    by_cases he : e.1 = k
    · simp [updateProp, he, lookupKey]
    · simp only [lookupKey, if_neg he] at h
      simp only [updateProp, if_neg he, lookupKey]
      exact ih h

theorem lookupKey_updateProp_ne (o : OwnProps) (k k' : PropKey) (a : PropAttr)
    (hne : k' ≠ k) :
    lookupKey (updateProp o k a) k' = lookupKey o k' := by
  have hkk : ¬(k = k') := fun h2 => hne h2.symm
  induction o with
  | nil => rfl
  | cons e rest ih =>
    by_cases he : e.1 = k
    · have he' : ¬(e.1 = k') := by
        rw [he]
        exact hkk
      simp only [updateProp, if_pos he, lookupKey, if_neg hkk, if_neg he']
    · simp only [updateProp, if_neg he, lookupKey]
      by_cases he2 : e.1 = k'
      · rw [if_pos he2, if_pos he2]
      · rw [if_neg he2, if_neg he2]
        exact ih

theorem lookupKey_append_single_self (o : OwnProps) (k : PropKey) (a : PropAttr)
    (h : lookupKey o k = none) :
    lookupKey (o ++ [(k, a)]) k = some a := by
  induction o with
  | nil => simp [lookupKey]
  | cons e rest ih =>
    simp only [lookupKey] at h
    by_cases he : e.1 = k
    · rw [if_pos he] at h
      cases h
    · rw [if_neg he] at h
      simp only [List.cons_append, lookupKey, if_neg he]
      exact ih h

theorem lookupKey_append_single_ne (o : OwnProps) (k k' : PropKey) (a : PropAttr)
    (hne : k' ≠ k) :
    lookupKey (o ++ [(k, a)]) k' = lookupKey o k' := by
  have hkk : ¬(k = k') := fun h2 => hne h2.symm
  induction o with
  | nil =>
    simp only [List.nil_append, lookupKey, if_neg hkk]
  | cons e rest ih =>
    by_cases he : e.1 = k'
    · simp only [List.cons_append, lookupKey, if_pos he]
    · simp only [List.cons_append, lookupKey, if_neg he]
      exact ih

theorem setAssign_lookup_ne (t t2 : OwnProps) (key k : PropKey) (v : JSValue)
    (hne : k ≠ key) (h : setAssign t key v = some t2) :
    lookupKey t2 k = lookupKey t k := by
  unfold setAssign at h
  cases ht : lookupKey t key with
  | some a =>
    rw [ht] at h
    simp only [] at h
    by_cases hw : a.writable = true
    · rw [if_pos hw] at h
      injection h with h2
      rw [← h2]
      exact lookupKey_updateProp_ne t key k _ hne
    · rw [if_neg hw] at h
      cases h
  | none =>
    rw [ht] at h
    simp only [] at h
    injection h with h2
    rw [← h2]
    exact lookupKey_append_single_ne t key k _ hne

theorem definePropertyOwn_lookup_ne (t t2 : OwnProps) (key k : PropKey) (a : PropAttr)
    (hne : k ≠ key) (h : definePropertyOwn t key a = some t2) :
    lookupKey t2 k = lookupKey t k := by
  unfold definePropertyOwn at h
  cases ht : lookupKey t key with
  | some old =>
    rw [ht] at h
    simp only [] at h
    by_cases hc : old.configurable = true
    · rw [if_pos hc] at h
      injection h with h2
      rw [← h2]
      exact lookupKey_updateProp_ne t key k _ hne
    · rw [if_neg hc] at h
      cases h
  | none =>
    rw [ht] at h
    simp only [] at h
    injection h with h2
    rw [← h2]
    exact lookupKey_append_single_ne t key k _ hne

theorem transferCopy_lookup_ne (s t : OwnProps) (key k : PropKey) (hne : k ≠ key) :
    lookupKey (transferCopy s t key) k = lookupKey t k := by
  unfold transferCopy
  cases hs : lookupKey s key with
  | none => rfl
  | some sd =>
    simp only []
    cases hsa : setAssign t key sd.value with
    | some t2 =>
      simp only []
      exact setAssign_lookup_ne t t2 key k sd.value hne hsa
    | none =>
      simp only []
      cases hdp : definePropertyOwn t key
          ⟨sd.value, sd.writable, sd.enumerable, sd.configurable⟩ with
      | some t2 =>
        simp only []
        exact definePropertyOwn_lookup_ne t t2 key k _ hne hdp
      | none => rfl

theorem transferOne_lookup_ne (s t : OwnProps) (key k : PropKey) (hne : k ≠ key) :
    lookupKey (transferOne s t key) k = lookupKey t k := by
  unfold transferOne
  by_cases hb : buildInProps key = true
  · rw [if_pos hb]
  · rw [if_neg hb]
    cases ht : lookupKey t key with
    | none =>
      simp only []
      exact transferCopy_lookup_ne s t key k hne
    | some td =>
      simp only []
      by_cases hc : td.configurable = false
      · rw [if_pos hc]
      · rw [if_neg hc]
        exact transferCopy_lookup_ne s t key k hne

theorem transferOne_buildIn_self (s t : OwnProps) (key : PropKey)
    (hb : buildInProps key = true) : transferOne s t key = t := by
  unfold transferOne
  rw [if_pos hb]

theorem transferOne_nonconfig_self (s t : OwnProps) (key : PropKey) (td : PropAttr)
    (ht : lookupKey t key = some td) (hc : td.configurable = false) :
    transferOne s t key = t := by
  unfold transferOne
  by_cases hb : buildInProps key = true
  · rw [if_pos hb]
  · rw [if_neg hb, ht]
    simp only []
    rw [if_pos hc]

theorem transferCopy_value (s t : OwnProps) (k : PropKey) (sd : PropAttr)
    (hs : lookupKey s k = some sd)
    (hpre : lookupKey t k = none ∨ ∃ td, lookupKey t k = some td ∧ td.configurable = true) :
    (lookupKey (transferCopy s t k) k).map PropAttr.value = some sd.value := by
  unfold transferCopy
  rw [hs]
  simp only []
  rcases hpre with ht | ⟨td, ht, hc⟩
  · have hsa : setAssign t k sd.value
        = some (t ++ [(k, ⟨sd.value, true, true, true⟩)]) := by
      unfold setAssign
      rw [ht]
    rw [hsa]
    simp only []
    rw [lookupKey_append_single_self t k _ ht]
    rfl
  · by_cases hw : td.writable = true
    · have hsa : setAssign t k sd.value
          = some (updateProp t k ⟨sd.value, td.writable, td.enumerable, td.configurable⟩) := by
        unfold setAssign
        rw [ht]
        simp only []
        rw [if_pos hw]
      rw [hsa]
      simp only []
      rw [lookupKey_updateProp_self t k _ (by rw [ht]; rfl)]
      rfl
    · have hsa : setAssign t k sd.value = none := by
        unfold setAssign
        rw [ht]
        simp only []
        rw [if_neg hw]
      rw [hsa]
      simp only []
      have hdp : definePropertyOwn t k ⟨sd.value, sd.writable, sd.enumerable, sd.configurable⟩
          = some (updateProp t k ⟨sd.value, sd.writable, sd.enumerable, sd.configurable⟩) := by
        unfold definePropertyOwn
        rw [ht]
        simp only []
        rw [if_pos hc]
      rw [hdp]
      simp only []
      rw [lookupKey_updateProp_self t k _ (by rw [ht]; rfl)]
      rfl

theorem transferOne_copy_value (s t : OwnProps) (k : PropKey) (sd : PropAttr)
    (hb : buildInProps k = false) (hs : lookupKey s k = some sd)
    (hpre : lookupKey t k = none ∨ ∃ td, lookupKey t k = some td ∧ td.configurable = true) :
    (lookupKey (transferOne s t k) k).map PropAttr.value = some sd.value := by
  have hb2 : ¬(buildInProps k = true) := by
    rw [hb]
    decide
  unfold transferOne
  rw [if_neg hb2]
  rcases hpre with ht | ⟨td, ht, hc⟩
  · rw [ht]
    simp only []
    exact transferCopy_value s t k sd hs (Or.inl ht)
  · rw [ht]
    simp only []
    rw [if_neg (show ¬(td.configurable = false) by rw [hc]; decide)]
    exact transferCopy_value s t k sd hs (Or.inr ⟨td, ht, hc⟩)

theorem foldl_transferOne_buildIn (s : OwnProps) (ks : List PropKey) (t : OwnProps)
    (k : PropKey) (hb : buildInProps k = true) :
    lookupKey (ks.foldl (fun t2 k2 => transferOne s t2 k2) t) k = lookupKey t k := by
  induction ks generalizing t with
  | nil => rfl
  | cons a l ih =>
    rw [List.foldl_cons, ih]
    by_cases hak : k = a
    · rw [← hak, transferOne_buildIn_self s t k hb]
    · exact transferOne_lookup_ne s t a k hak

theorem foldl_transferOne_nonconfig (s : OwnProps) (ks : List PropKey) (t : OwnProps)
    (k : PropKey) (td : PropAttr) (ht : lookupKey t k = some td)
    (hc : td.configurable = false) :
    lookupKey (ks.foldl (fun t2 k2 => transferOne s t2 k2) t) k = some td := by
  induction ks generalizing t with
  | nil => exact ht
  | cons a l ih =>
    rw [List.foldl_cons]
    refine ih (transferOne s t a) ?_
    by_cases hak : k = a
    · rw [← hak, transferOne_nonconfig_self s t k td ht hc]
      exact ht
    · rw [transferOne_lookup_ne s t a k hak]
      exact ht

theorem foldl_transferOne_keep_value (s : OwnProps) (ks : List PropKey) (t : OwnProps)
    (k : PropKey) (sd : PropAttr) (hb : buildInProps k = false)
    (hs : lookupKey s k = some sd)
    (hP : (lookupKey t k).map PropAttr.value = some sd.value) :
    (lookupKey (ks.foldl (fun t2 k2 => transferOne s t2 k2) t) k).map PropAttr.value
      = some sd.value := by
  induction ks generalizing t with
  | nil => exact hP
  | cons a l ih =>
    rw [List.foldl_cons]
    refine ih (transferOne s t a) ?_
    by_cases hak : k = a
    · subst hak
      cases hattr : lookupKey t k with
      | none => rw [hattr] at hP; cases hP
      | some attr =>
        by_cases hc : attr.configurable = false
        · rw [transferOne_nonconfig_self s t k attr hattr hc]
          exact hP
        · rw [hattr] at hP
          have hval : attr.value = sd.value := by
            simpa using hP
          exact transferOne_copy_value s t k sd hb hs
            (Or.inr ⟨attr, hattr, by simpa using hc⟩)
    · rw [transferOne_lookup_ne s t a k hak]
      exact hP

theorem foldl_transferOne_copy (s : OwnProps) (ks : List PropKey) (t : OwnProps)
    (k : PropKey) (sd : PropAttr) (hb : buildInProps k = false)
    (hs : lookupKey s k = some sd) (hmem : k ∈ ks)
    (hpre : lookupKey t k = none ∨ ∃ td, lookupKey t k = some td ∧ td.configurable = true) :
    (lookupKey (ks.foldl (fun t2 k2 => transferOne s t2 k2) t) k).map PropAttr.value
      = some sd.value := by
  induction ks generalizing t with
  | nil => cases hmem
  | cons a l ih =>
    rw [List.foldl_cons]
    by_cases hak : k = a
    · subst hak
      exact foldl_transferOne_keep_value s l (transferOne s t k) k sd hb hs
        (transferOne_copy_value s t k sd hb hs hpre)
    · have hmem2 : k ∈ l := by
        rcases List.mem_cons.1 hmem with h | h
        · exact absurd h hak
        · exact h
      refine ih (transferOne s t a) hmem2 ?_
      rw [transferOne_lookup_ne s t a k hak]
      exact hpre

/-- C7: property transfer onto the wrapper: a protected intrinsic name
(length, caller, callee, arguments, prototype, Symbol.hasInstance) is never
copied; a key the target already defines non-configurably is skipped and
keeps its descriptor; any other own (in particular enumerable) source
property ends up on the target with the source's value. -/
theorem transferProps_spec (source target : OwnProps) (k : PropKey) :
    (buildInProps k = true →
      lookupKey (transferProps source target) k = lookupKey target k) ∧
    (∀ td, lookupKey target k = some td → td.configurable = false →
      lookupKey (transferProps source target) k = some td) ∧
    (∀ sd, lookupKey source k = some sd → sd.enumerable = true →
      buildInProps k = false →
      (lookupKey target k = none ∨
        ∃ td, lookupKey target k = some td ∧ td.configurable = true) →
      (lookupKey (transferProps source target) k).map PropAttr.value = some sd.value) := by
  refine ⟨?_, ?_, ?_⟩
  · intro hb
    exact foldl_transferOne_buildIn source (source.map Prod.fst) target k hb
  · intro td ht hc
    exact foldl_transferOne_nonconfig source (source.map Prod.fst) target k td ht hc
  · intro sd hs _ hb hpre
    exact foldl_transferOne_copy source (source.map Prod.fst) target k sd hb hs
      (lookupKey_eq_some_mem source k sd hs) hpre

/-- Witness for C7: the enumerable static "helper" is copied with its value
onto the target, while the protected name "length" is not copied even though
the source carries it as an own enumerable property. -/
theorem transferProps_spec_witness :
    (lookupKey (transferProps wTransferSource wTransferTarget)
        (PropKey.str "helper")).map PropAttr.value = some (JSValue.num 42) ∧
    lookupKey (transferProps wTransferSource wTransferTarget) (PropKey.str "length")
      = lookupKey wTransferTarget (PropKey.str "length") := by
  constructor
  · exact (transferProps_spec wTransferSource wTransferTarget (PropKey.str "helper")).2.2
      ⟨JSValue.num 42, true, true, true⟩ (by decide) (by decide) (by decide)
      (Or.inl (by decide))
  · exact (transferProps_spec wTransferSource wTransferTarget (PropKey.str "length")).1
      (by decide)

theorem lookupKey_assignProp_ne (o : OwnProps) (k k' : PropKey) (v : JSValue)
    (hne : k' ≠ k) :
    lookupKey (assignProp o k v) k' = lookupKey o k' := by
  unfold assignProp
  cases ho : lookupKey o k with
  | some a =>
    simp only []
    exact lookupKey_updateProp_ne o k k' _ hne
  | none =>
    simp only []
    exact lookupKey_append_single_ne o k k' _ hne

theorem lookupKey_assignProp_self_value (o : OwnProps) (k : PropKey) (v : JSValue) :
    (lookupKey (assignProp o k v) k).map PropAttr.value = some v := by
  unfold assignProp
  cases ho : lookupKey o k with
  | some a =>
    simp only []
    rw [lookupKey_updateProp_self o k _ (by rw [ho]; rfl)]
    rfl
  | none =>
    simp only []
    rw [lookupKey_append_single_self o k _ ho]
    rfl

theorem transferProps_lookup_buildIn (s t : OwnProps) (k : PropKey)
    (hb : buildInProps k = true) :
    lookupKey (transferProps s t) k = lookupKey t k := by
  unfold transferProps
  exact foldl_transferOne_buildIn s (s.map Prod.fst) t k hb

theorem lookupKey_defineGetD_ne (o : OwnProps) (k k' : PropKey) (a : PropAttr)
    (hne : k' ≠ k) :
    lookupKey ((definePropertyOwn o k a).getD o) k' = lookupKey o k' := by
  cases hd : definePropertyOwn o k a with
  | none => rfl
  | some t2 =>
    simp only [Option.getD]
    exact definePropertyOwn_lookup_ne o t2 k k' a hne hd

theorem lookupKey_defineGetD_self (o : OwnProps) (k : PropKey) (a : PropAttr)
    (ho : lookupKey o k = none) :
    lookupKey ((definePropertyOwn o k a).getD o) k = some a := by
  unfold definePropertyOwn
  rw [ho]
  simp only [Option.getD]
  exact lookupKey_append_single_self o k a ho

theorem getAssoc_setAssoc_self {α : Type} (l : List (Nat × α)) (i : Nat) (v : α)
    (h2 : (getAssoc l i).isSome = true) : getAssoc (setAssoc l i v) i = some v := by
  induction l with
  | nil => simp [getAssoc] at h2
  | cons e rest ih =>
    by_cases he : e.1 = i
    · simp [setAssoc, he, getAssoc]
    · simp only [getAssoc, if_neg he] at h2
      simp only [setAssoc, if_neg he, getAssoc, if_neg he]
      exact ih h2

theorem getAssoc_setAssoc_ne {α : Type} (l : List (Nat × α)) (i j : Nat) (v : α)
    (hne : j ≠ i) : getAssoc (setAssoc l i v) j = getAssoc l j := by
  have hij : ¬(i = j) := fun h2 => hne h2.symm
  induction l with
  | nil => rfl
  | cons e rest ih =>
    by_cases he : e.1 = i
    · have he' : ¬(e.1 = j) := by
        rw [he]
        exact hij
      simp only [setAssoc, if_pos he, getAssoc, if_neg hij, if_neg he']
    · simp only [setAssoc, if_neg he, getAssoc]
      by_cases he2 : e.1 = j
      · rw [if_pos he2, if_pos he2]
      · rw [if_neg he2, if_neg he2]
        exact ih

theorem Heap_get_set_self (h : Heap) (i : Nat) (r : ObjRec)
    (hp : (h.get i).isSome = true) : (h.set i r).get i = some r :=
  getAssoc_setAssoc_self h.objs i r hp

theorem Heap_get_set_ne (h : Heap) (i j : Nat) (r : ObjRec) (hne : j ≠ i) :
    (h.set i r).get j = h.get j :=
  getAssoc_setAssoc_ne h.objs i j r hne

theorem Heap_get_alloc_self (h : Heap) (r : ObjRec) : (h.alloc r).1.get h.next = some r := by
  simp [Heap.alloc, Heap.get, getAssoc]

theorem Heap_get_alloc_ne (h : Heap) (r : ObjRec) (i : Nat) (hne : i ≠ h.next) :
    (h.alloc r).1.get i = h.get i := by
  have : ¬(h.next = i) := fun h2 => hne h2.symm
  simp [Heap.alloc, Heap.get, getAssoc, this]

theorem Heap_mapProps_next (h : Heap) (i : Nat) (f : OwnProps → OwnProps) :
    (h.mapProps i f).next = h.next := by
  unfold Heap.mapProps
  cases h.get i <;> rfl

theorem Heap_assign_next (h : Heap) (i : Nat) (k : PropKey) (v : JSValue) :
    (h.assign i k v).next = h.next :=
  Heap_mapProps_next h i _

theorem Heap_defineProp_next (h : Heap) (i : Nat) (k : PropKey) (a : PropAttr) :
    (h.defineProp i k a).next = h.next :=
  Heap_mapProps_next h i _

theorem Heap_setProto_next (h : Heap) (i : Nat) (p : Option Nat) :
    (h.setProto i p).next = h.next := by
  unfold Heap.setProto
  cases h.get i <;> rfl

theorem Heap_get_mapProps_self (h : Heap) (i : Nat) (f : OwnProps → OwnProps) (r : ObjRec)
    (hr : h.get i = some r) : (h.mapProps i f).get i = some ⟨r.proto, f r.props⟩ := by
  unfold Heap.mapProps
  rw [hr]
  simp only []
  exact Heap_get_set_self h i _ (by rw [hr]; rfl)

theorem Heap_get_mapProps_ne (h : Heap) (i j : Nat) (f : OwnProps → OwnProps)
    (hne : j ≠ i) : (h.mapProps i f).get j = h.get j := by
  unfold Heap.mapProps
  cases hg : h.get i with
  | none => rfl
  | some r =>
    simp only []
    exact Heap_get_set_ne h i j _ hne

theorem Heap_get_setProto_self (h : Heap) (i : Nat) (p : Option Nat) (r : ObjRec)
    (hr : h.get i = some r) : (h.setProto i p).get i = some ⟨p, r.props⟩ := by
  unfold Heap.setProto
  rw [hr]
  simp only []
  exact Heap_get_set_self h i _ (by rw [hr]; rfl)

theorem Heap_get_setProto_ne (h : Heap) (i j : Nat) (p : Option Nat) (hne : j ≠ i) :
    (h.setProto i p).get j = h.get j := by
  unfold Heap.setProto
  cases hg : h.get i with
  | none => rfl
  | some r =>
    simp only []
    exact Heap_get_set_ne h i j _ hne

theorem getAssoc_ite {α : Type} (c : Prop) [Decidable c] (l1 l2 : List (Nat × α)) (i : Nat) :
    getAssoc (if c then l1 else l2) i = if c then getAssoc l1 i else getAssoc l2 i :=
  apply_ite (fun l => getAssoc l i) c l1 l2

theorem setAssoc_ite {α : Type} (c : Prop) [Decidable c] (l1 l2 : List (Nat × α)) (i : Nat)
    (v : α) :
    setAssoc (if c then l1 else l2) i v = if c then setAssoc l1 i v else setAssoc l2 i v :=
  apply_ite (fun l => setAssoc l i v) c l1 l2

theorem bindM_ids (h0 : Heap) (fnId : Nat) (ctx : JSValue) :
    (bindM h0 fnId ctx).boundId = h0.next + 3 ∧
    (bindM h0 fnId ctx).fNOPId = h0.next + 1 ∧
    (bindM h0 fnId ctx).boundProtoId = h0.next + 4 ∧
    (bindM h0 fnId ctx).heap.next = h0.next + 5 := by
  refine ⟨rfl, rfl, ?_, ?_⟩
  · unfold bindM
    simp [Heap.alloc, Heap_assign_next, Heap_mapProps_next, Heap_defineProp_next,
      apply_ite Heap.next]
  · unfold bindM
    simp [Heap.alloc, Heap_assign_next, Heap_mapProps_next, Heap_defineProp_next,
      apply_ite Heap.next]

theorem bindM_get_fn (h0 : Heap) (fnId : Nat) (ctx : JSValue) (hfn : fnId < h0.next) :
    (bindM h0 fnId ctx).heap.get fnId = h0.get fnId := by
  have e1 : h0.next + 1 + 1 = h0.next + 2 := by omega
  have e2 : h0.next + 1 + 1 + 1 = h0.next + 3 := by omega
  have e3 : h0.next + 1 + 1 + 1 + 1 = h0.next + 4 := by omega
  unfold bindM
  simp [Heap.alloc, Heap.assign, Heap.defineProp, Heap.mapProps, Heap.set, Heap.get,
    getAssoc, setAssoc, e1, e2, e3, getAssoc_setAssoc_ne,
    apply_ite Heap.objs, apply_ite Heap.next, getAssoc_ite, setAssoc_ite,
    (show h0.next ≠ fnId from by omega), (show h0.next + 1 ≠ fnId from by omega),
    (show h0.next + 2 ≠ fnId from by omega), (show h0.next + 3 ≠ fnId from by omega),
    (show h0.next + 4 ≠ fnId from by omega),
    (show h0.next + 1 ≠ h0.next from by omega), (show h0.next + 2 ≠ h0.next from by omega),
    (show h0.next + 3 ≠ h0.next from by omega), (show h0.next + 4 ≠ h0.next from by omega),
    (show h0.next + 2 ≠ h0.next + 1 from by omega),
    (show h0.next + 3 ≠ h0.next + 1 from by omega),
    (show h0.next + 4 ≠ h0.next + 1 from by omega),
    (show h0.next + 1 ≠ h0.next + 2 from by omega),
    (show h0.next + 3 ≠ h0.next + 2 from by omega),
    (show h0.next + 4 ≠ h0.next + 2 from by omega),
    (show h0.next + 1 ≠ h0.next + 3 from by omega),
    (show h0.next + 2 ≠ h0.next + 3 from by omega),
    (show h0.next + 4 ≠ h0.next + 3 from by omega)]

theorem bindM_bound_prototype (h0 : Heap) (fnId : Nat) (ctx : JSValue)
    (hfn : fnId < h0.next) :
    (bindM h0 fnId ctx).heap.getProp (h0.next + 3) (PropKey.str "prototype")
      = JSValue.obj (h0.next + 4) := by
  have e1 : h0.next + 1 + 1 = h0.next + 2 := by omega
  have e2 : h0.next + 1 + 1 + 1 = h0.next + 3 := by omega
  have e3 : h0.next + 1 + 1 + 1 + 1 = h0.next + 4 := by omega
  unfold bindM
  simp [Heap.alloc, Heap.assign, Heap.defineProp, Heap.mapProps, Heap.set, Heap.get,
    Heap.getProp, getAssoc, setAssoc, e1, e2, e3,
    lookupKey_defineGetD_ne, lookupKey_assignProp_self_value,
    getAssoc_setAssoc_ne,
    apply_ite Heap.objs, apply_ite Heap.next, getAssoc_ite, setAssoc_ite,
    (show h0.next ≠ fnId from by omega), (show h0.next + 1 ≠ fnId from by omega),
    (show h0.next + 2 ≠ fnId from by omega), (show h0.next + 3 ≠ fnId from by omega),
    (show h0.next + 4 ≠ fnId from by omega),
    (show fnId ≠ h0.next from by omega), (show fnId ≠ h0.next + 1 from by omega),
    (show fnId ≠ h0.next + 2 from by omega), (show fnId ≠ h0.next + 3 from by omega),
    (show fnId ≠ h0.next + 4 from by omega),
    (show h0.next + 1 ≠ h0.next from by omega), (show h0.next + 2 ≠ h0.next from by omega),
    (show h0.next + 3 ≠ h0.next from by omega), (show h0.next + 4 ≠ h0.next from by omega),
    (show h0.next + 2 ≠ h0.next + 1 from by omega),
    (show h0.next + 3 ≠ h0.next + 1 from by omega),
    (show h0.next + 4 ≠ h0.next + 1 from by omega),
    (show h0.next + 1 ≠ h0.next + 2 from by omega),
    (show h0.next + 3 ≠ h0.next + 2 from by omega),
    (show h0.next + 4 ≠ h0.next + 2 from by omega),
    (show h0.next + 1 ≠ h0.next + 3 from by omega),
    (show h0.next + 2 ≠ h0.next + 3 from by omega),
    (show h0.next + 4 ≠ h0.next + 3 from by omega),
    (show h0.next + 3 ≠ h0.next + 4 from by omega)]

theorem bindM_bound_hasInstance_prop (h0 : Heap) (fnId : Nat) (ctx : JSValue)
    (hfn : fnId < h0.next) :
    ((bindM h0 fnId ctx).heap.get (h0.next + 3)).map
        (fun r => lookupKey r.props PropKey.symHasInstance)
      = some (some ⟨JSValue.undef, false, false, true⟩) := by
  have e1 : h0.next + 1 + 1 = h0.next + 2 := by omega
  have e2 : h0.next + 1 + 1 + 1 = h0.next + 3 := by omega
  have e3 : h0.next + 1 + 1 + 1 + 1 = h0.next + 4 := by omega
  unfold bindM
  simp [Heap.alloc, Heap.assign, Heap.defineProp, Heap.mapProps, Heap.set, Heap.get,
    getAssoc, setAssoc, e1, e2, e3,
    lookupKey_defineGetD_self, lookupKey_assignProp_ne, transferProps_lookup_buildIn,
    buildInProps, defaultFunProps, lookupKey,
    getAssoc_setAssoc_ne,
    apply_ite Heap.objs, apply_ite Heap.next, getAssoc_ite, setAssoc_ite,
    (show h0.next ≠ fnId from by omega), (show h0.next + 1 ≠ fnId from by omega),
    (show h0.next + 2 ≠ fnId from by omega), (show h0.next + 3 ≠ fnId from by omega),
    (show h0.next + 4 ≠ fnId from by omega),
    (show fnId ≠ h0.next from by omega), (show fnId ≠ h0.next + 1 from by omega),
    (show fnId ≠ h0.next + 2 from by omega), (show fnId ≠ h0.next + 3 from by omega),
    (show fnId ≠ h0.next + 4 from by omega),
    (show h0.next + 1 ≠ h0.next from by omega), (show h0.next + 2 ≠ h0.next from by omega),
    (show h0.next + 3 ≠ h0.next from by omega), (show h0.next + 4 ≠ h0.next from by omega),
    (show h0.next + 2 ≠ h0.next + 1 from by omega),
    (show h0.next + 3 ≠ h0.next + 1 from by omega),
    (show h0.next + 4 ≠ h0.next + 1 from by omega),
    (show h0.next + 1 ≠ h0.next + 2 from by omega),
    (show h0.next + 3 ≠ h0.next + 2 from by omega),
    (show h0.next + 4 ≠ h0.next + 2 from by omega),
    (show h0.next + 1 ≠ h0.next + 3 from by omega),
    (show h0.next + 2 ≠ h0.next + 3 from by omega),
    (show h0.next + 4 ≠ h0.next + 3 from by omega),
    (show h0.next + 3 ≠ h0.next + 4 from by omega)]

theorem bindM_protoObj (h0 : Heap) (fnId fp : Nat) (ctx : JSValue)
    (hfn : fnId < h0.next)
    (hpv : h0.getProp fnId (PropKey.str "prototype") = JSValue.obj fp) :
    (bindM h0 fnId ctx).heap.get (h0.next + 4) = some ⟨some fp, []⟩ := by
  have e1 : h0.next + 1 + 1 = h0.next + 2 := by omega
  have e2 : h0.next + 1 + 1 + 1 = h0.next + 3 := by omega
  have e3 : h0.next + 1 + 1 + 1 + 1 = h0.next + 4 := by omega
  simp [Heap.getProp, Heap.get] at hpv
  unfold bindM
  simp [Heap.alloc, Heap.assign, Heap.defineProp, Heap.mapProps, Heap.set, Heap.get,
    Heap.getProp, getAssoc, setAssoc, e1, e2, e3, hpv, truthy,
    lookupKey_assignProp_self_value,
    getAssoc_setAssoc_ne,
    apply_ite Heap.objs, apply_ite Heap.next, getAssoc_ite, setAssoc_ite,
    (show h0.next ≠ fnId from by omega), (show h0.next + 1 ≠ fnId from by omega),
    (show h0.next + 2 ≠ fnId from by omega), (show h0.next + 3 ≠ fnId from by omega),
    (show h0.next + 4 ≠ fnId from by omega),
    (show fnId ≠ h0.next from by omega), (show fnId ≠ h0.next + 1 from by omega),
    (show fnId ≠ h0.next + 2 from by omega), (show fnId ≠ h0.next + 3 from by omega),
    (show fnId ≠ h0.next + 4 from by omega),
    (show h0.next + 1 ≠ h0.next from by omega), (show h0.next + 2 ≠ h0.next from by omega),
    (show h0.next + 3 ≠ h0.next from by omega), (show h0.next + 4 ≠ h0.next from by omega),
    (show h0.next + 2 ≠ h0.next + 1 from by omega),
    (show h0.next + 3 ≠ h0.next + 1 from by omega),
    (show h0.next + 4 ≠ h0.next + 1 from by omega),
    (show h0.next + 1 ≠ h0.next + 2 from by omega),
    (show h0.next + 3 ≠ h0.next + 2 from by omega),
    (show h0.next + 4 ≠ h0.next + 2 from by omega),
    (show h0.next + 1 ≠ h0.next + 3 from by omega),
    (show h0.next + 2 ≠ h0.next + 3 from by omega),
    (show h0.next + 4 ≠ h0.next + 3 from by omega),
    (show h0.next + 3 ≠ h0.next + 4 from by omega)]

theorem bindM_protoUndef (h0 : Heap) (fnId : Nat) (ctx : JSValue)
    (hfn : fnId < h0.next)
    (hpv : h0.getProp fnId (PropKey.str "prototype") = JSValue.undef) :
    (bindM h0 fnId ctx).heap.get (h0.next + 4) = some ⟨some h0.next, []⟩ := by
  have e1 : h0.next + 1 + 1 = h0.next + 2 := by omega
  have e2 : h0.next + 1 + 1 + 1 = h0.next + 3 := by omega
  have e3 : h0.next + 1 + 1 + 1 + 1 = h0.next + 4 := by omega
  simp [Heap.getProp, Heap.get] at hpv
  unfold bindM
  simp [Heap.alloc, Heap.assign, Heap.defineProp, Heap.mapProps, Heap.set, Heap.get,
    Heap.getProp, getAssoc, setAssoc, e1, e2, e3, hpv, truthy,
    defaultFunProps, lookupKey,
    getAssoc_setAssoc_ne,
    apply_ite Heap.objs, apply_ite Heap.next, getAssoc_ite, setAssoc_ite,
    (show h0.next ≠ fnId from by omega), (show h0.next + 1 ≠ fnId from by omega),
    (show h0.next + 2 ≠ fnId from by omega), (show h0.next + 3 ≠ fnId from by omega),
    (show h0.next + 4 ≠ fnId from by omega),
    (show fnId ≠ h0.next from by omega), (show fnId ≠ h0.next + 1 from by omega),
    (show fnId ≠ h0.next + 2 from by omega), (show fnId ≠ h0.next + 3 from by omega),
    (show fnId ≠ h0.next + 4 from by omega),
    (show h0.next + 1 ≠ h0.next from by omega), (show h0.next + 2 ≠ h0.next from by omega),
    (show h0.next + 3 ≠ h0.next from by omega), (show h0.next + 4 ≠ h0.next from by omega),
    (show h0.next + 2 ≠ h0.next + 1 from by omega),
    (show h0.next + 3 ≠ h0.next + 1 from by omega),
    (show h0.next + 4 ≠ h0.next + 1 from by omega),
    (show h0.next + 1 ≠ h0.next + 2 from by omega),
    (show h0.next + 3 ≠ h0.next + 2 from by omega),
    (show h0.next + 4 ≠ h0.next + 2 from by omega),
    (show h0.next + 1 ≠ h0.next + 3 from by omega),
    (show h0.next + 2 ≠ h0.next + 3 from by omega),
    (show h0.next + 4 ≠ h0.next + 3 from by omega),
    (show h0.next + 3 ≠ h0.next + 4 from by omega)]


theorem getProp_congr (h1 h2 : Heap) (i : Nat) (k : PropKey)
    (hg : h1.get i = h2.get i) : h1.getProp i k = h2.getProp i k := by
  unfold Heap.getProp
  rw [hg]

theorem protoChainContains_second (h : Heap) (fuel : Nat) (a b : Nat)
    (hfuel : 2 ≤ fuel) (hab : ((h.get a).bind ObjRec.proto) = some b) :
    protoChainContains h fuel (some a) b = true := by
  obtain ⟨m, rfl⟩ : ∃ m, fuel = m + 2 := ⟨fuel - 2, by omega⟩
  simp only [protoChainContains]
  rw [hab]
  simp only [protoChainContains]
  simp

theorem bound_instance_of_fresh (h0 : Heap) (fnId fp : Nat) (ctx : JSValue) (fnB : FnSpec)
    (hfn : fnId < h0.next) (hfp : fp < h0.next)
    (hproto : h0.getProp fnId (PropKey.str "prototype") = JSValue.obj fp)
    (hhi : ∀ h v, fnB.hasInst h v = ordinaryInstanceOf h v fp) :
    boundHasInstance fnB fnId
        (((bindM h0 fnId ctx).heap.alloc ⟨some (bindM h0 fnId ctx).boundProtoId, []⟩).1)
        (JSValue.obj (bindM h0 fnId ctx).heap.next) = true := by
  obtain ⟨hb1, hb2, hb3, hb4⟩ := bindM_ids h0 fnId ctx
  have hget_fn : (bindM h0 fnId ctx).heap.get fnId = h0.get fnId := bindM_get_fn h0 fnId ctx hfn
  have hproto4 : (bindM h0 fnId ctx).heap.get (bindM h0 fnId ctx).boundProtoId
      = some ⟨some fp, []⟩ := by
    rw [hb3]
    exact bindM_protoObj h0 fnId fp ctx hfn hproto
  have h1fn : (((bindM h0 fnId ctx).heap.alloc
      ⟨some (bindM h0 fnId ctx).boundProtoId, []⟩).1).get fnId
      = (bindM h0 fnId ctx).heap.get fnId :=
    Heap_get_alloc_ne _ _ fnId (by omega)
  have h1this : (((bindM h0 fnId ctx).heap.alloc
      ⟨some (bindM h0 fnId ctx).boundProtoId, []⟩).1).get (bindM h0 fnId ctx).heap.next
      = some ⟨some (bindM h0 fnId ctx).boundProtoId, []⟩ :=
    Heap_get_alloc_self _ _
  have h1P : (((bindM h0 fnId ctx).heap.alloc
      ⟨some (bindM h0 fnId ctx).boundProtoId, []⟩).1).get (bindM h0 fnId ctx).boundProtoId
      = (bindM h0 fnId ctx).heap.get (bindM h0 fnId ctx).boundProtoId :=
    Heap_get_alloc_ne _ _ _ (by omega)
  have h1next : (((bindM h0 fnId ctx).heap.alloc
      ⟨some (bindM h0 fnId ctx).boundProtoId, []⟩).1).next
      = (bindM h0 fnId ctx).heap.next + 1 := rfl
  unfold boundHasInstance
  rw [getProp_congr _ _ fnId (PropKey.str "prototype") (h1fn.trans hget_fn) ]
  rw [hproto]
  simp only [isObjectValue, if_pos]
  rw [hhi]
  unfold ordinaryInstanceOf
  simp only []
  rw [h1this]
  refine protoChainContains_second _ _ _ _ (by omega) ?_
  rw [h1P, hproto4]
  rfl

theorem Heap_alloc_snd (h : Heap) (r : ObjRec) : (h.alloc r).2 = h.next := rfl

theorem boundCall_construct_branch (fnB : FnSpec) (fnId boundId : Nat) (ctx : JSValue)
    (h : Heap) (thisV : JSValue) (args : List JSValue)
    (hbi : boundHasInstance fnB fnId h thisV = true) :
    boundCall fnB fnId boundId ctx h thisV args
      = ((fnB.construct h args).1.setProto (fnB.construct h args).2
          (match (fnB.construct h args).1.getProp boundId (PropKey.str "prototype") with
           | JSValue.obj i => some i
           | _ => none),
         JSValue.obj (fnB.construct h args).2) := by
  simp only [boundCall, handlerParams]
  rw [if_pos hbi]

theorem boundCall_call_branch (fnB : FnSpec) (fnId boundId : Nat) (ctx : JSValue)
    (h : Heap) (thisV : JSValue) (args : List JSValue)
    (hbi : boundHasInstance fnB fnId h thisV = false) :
    boundCall fnB fnId boundId ctx h thisV args = fnB.call h ctx args := by
  simp only [boundCall, handlerParams]
  rw [if_neg (by rw [hbi]; exact Bool.false_ne_true)]

theorem bound_not_instance_undef (h0 : Heap) (fnId fp : Nat) (ctx : JSValue) (fnB : FnSpec)
    (hfn : fnId < h0.next)
    (hproto : h0.getProp fnId (PropKey.str "prototype") = JSValue.obj fp)
    (hhi : ∀ h v, fnB.hasInst h v = ordinaryInstanceOf h v fp) :
    boundHasInstance fnB fnId (bindM h0 fnId ctx).heap JSValue.undef = false := by
  have hget_fn : (bindM h0 fnId ctx).heap.get fnId = h0.get fnId := bindM_get_fn h0 fnId ctx hfn
  unfold boundHasInstance
  rw [getProp_congr _ _ fnId (PropKey.str "prototype") hget_fn, hproto]
  simp only [isObjectValue, if_pos]
  rw [hhi]
  rfl

/-- C4: invoked as a constructor, the wrapper constructs an instance of fn
with the given arguments, re-parents it onto the wrapper's own prototype
object (whose own prototype link is fn.prototype and which is a different
object than fn.prototype), and returns it; invoked as a plain call (receiver
undefined), it invokes fn with its context forced to the captured context
and the same arguments, returning fn's result. -/
theorem bind_construct_call (h0 : Heap) (fnId fp : Nat) (ctx : JSValue) (fnB : FnSpec)
    (args : List JSValue)
    (hfn : fnId < h0.next) (hfp : fp < h0.next)
    (hproto : h0.getProp fnId (PropKey.str "prototype") = JSValue.obj fp)
    (hhi : ∀ h v, fnB.hasInst h v = ordinaryInstanceOf h v fp) :
    (∀ hC c,
      fnB.construct (((bindM h0 fnId ctx).heap.alloc
          ⟨some (bindM h0 fnId ctx).boundProtoId, []⟩).1) args = (hC, c) →
      (hC.get c).isSome = true →
      hC.getProp (bindM h0 fnId ctx).boundId (PropKey.str "prototype")
        = (bindM h0 fnId ctx).heap.getProp (bindM h0 fnId ctx).boundId
            (PropKey.str "prototype") →
      (newBound fnB fnId (bindM h0 fnId ctx).boundId ctx (bindM h0 fnId ctx).heap args
          = (hC.setProto c (some (bindM h0 fnId ctx).boundProtoId), JSValue.obj c) ∧
       ((hC.setProto c (some (bindM h0 fnId ctx).boundProtoId)).get c).map ObjRec.proto
          = some (some (bindM h0 fnId ctx).boundProtoId) ∧
       (bindM h0 fnId ctx).heap.get (bindM h0 fnId ctx).boundProtoId = some ⟨some fp, []⟩ ∧
       (bindM h0 fnId ctx).boundProtoId ≠ fp)) ∧
    boundCall fnB fnId (bindM h0 fnId ctx).boundId ctx (bindM h0 fnId ctx).heap
        JSValue.undef args = fnB.call (bindM h0 fnId ctx).heap ctx args := by
  obtain ⟨hb1, hb2, hb3, hb4⟩ := bindM_ids h0 fnId ctx
  have hbp : (bindM h0 fnId ctx).heap.getProp (bindM h0 fnId ctx).boundId
      (PropKey.str "prototype") = JSValue.obj (bindM h0 fnId ctx).boundProtoId := by
    rw [hb1, hb3]
    exact bindM_bound_prototype h0 fnId ctx hfn
  have hproto4 : (bindM h0 fnId ctx).heap.get (bindM h0 fnId ctx).boundProtoId
      = some ⟨some fp, []⟩ := by
    rw [hb3]
    exact bindM_protoObj h0 fnId fp ctx hfn hproto
  constructor
  · intro hC c hcon hex hpres
    have hbi := bound_instance_of_fresh h0 fnId fp ctx fnB hfn hfp hproto hhi
    refine ⟨?_, ?_, hproto4, by omega⟩
    · simp only [newBound, Heap_alloc_snd]
      rw [hbp]
      simp only []
      rw [boundCall_construct_branch fnB fnId (bindM h0 fnId ctx).boundId ctx _ _ args hbi]
      rw [hcon]
      simp only []
      rw [hpres, hbp]
    · obtain ⟨r, hr⟩ := Option.isSome_iff_exists.1 hex
      rw [Heap_get_setProto_self hC c _ r hr]
      rfl
  · exact boundCall_call_branch fnB fnId (bindM h0 fnId ctx).boundId ctx _ _ args
      (bound_not_instance_undef h0 fnId fp ctx fnB hfn hproto hhi)

/-- Witness for C4 on the concrete two-object heap: construction through the
wrapper returns the freshly constructed instance (id 8) re-parented onto the
wrapper's prototype object, and a plain call forwards to fn's call behaviour
with the captured context. -/
theorem bind_construct_call_witness :
    newBound demoFnB 0 (bindM demoHeap 0 JSValue.undef).boundId JSValue.undef
        (bindM demoHeap 0 JSValue.undef).heap []
      = (((((bindM demoHeap 0 JSValue.undef).heap.alloc
              ⟨some (bindM demoHeap 0 JSValue.undef).boundProtoId, []⟩).1.alloc
              ⟨some 1, []⟩).1).setProto 8 (some (bindM demoHeap 0 JSValue.undef).boundProtoId),
         JSValue.obj 8) ∧
    boundCall demoFnB 0 (bindM demoHeap 0 JSValue.undef).boundId JSValue.undef
        (bindM demoHeap 0 JSValue.undef).heap JSValue.undef []
      = demoFnB.call (bindM demoHeap 0 JSValue.undef).heap JSValue.undef [] := by
  have h := bind_construct_call demoHeap 0 1 JSValue.undef demoFnB [] (by decide) (by decide)
    (by decide) (fun _ _ => rfl)
  refine ⟨?_, h.2⟩
  exact (h.1 (((bindM demoHeap 0 JSValue.undef).heap.alloc
      ⟨some (bindM demoHeap 0 JSValue.undef).boundProtoId, []⟩).1.alloc ⟨some 1, []⟩).1 8
      (by decide) (by decide) (by decide)).1

/-- Counterexample for C5: the claim would delegate whenever fn itself is
callable, which every function is; but for a function whose prototype
property is undefined the installed method answers false without consulting
the original's instanceof relation at all (here that relation holds of every
value). -/
theorem bind_hasInstance_counterexample :
    alwaysTrueFnB.hasInst (bindM noProtoHeap 0 JSValue.undef).heap (JSValue.str "x") = true ∧
    boundHasInstance alwaysTrueFnB 0 (bindM noProtoHeap 0 JSValue.undef).heap
      (JSValue.str "x") = false := by
  constructor
  · rfl
  · decide

/-- C5 (amended): the wrapper carries an own configurable Symbol.hasInstance
method, and for every value x the check delegates to x instanceof fn exactly
when fn.prototype is an object (or a function, itself an object in this
model), answering false otherwise — the condition inspects fn.prototype,
not fn's own callability. -/
theorem bind_hasInstance_spec (h0 : Heap) (fnId : Nat) (ctx : JSValue) (fnB : FnSpec)
    (x : JSValue) (hfn : fnId < h0.next) :
    ((bindM h0 fnId ctx).heap.get (bindM h0 fnId ctx).boundId).map
        (fun r => lookupKey r.props PropKey.symHasInstance)
      = some (some ⟨JSValue.undef, false, false, true⟩) ∧
    (isObjectValue ((bindM h0 fnId ctx).heap.getProp fnId (PropKey.str "prototype")) = true →
      boundHasInstance fnB fnId (bindM h0 fnId ctx).heap x
        = fnB.hasInst (bindM h0 fnId ctx).heap x) ∧
    (isObjectValue ((bindM h0 fnId ctx).heap.getProp fnId (PropKey.str "prototype")) = false →
      boundHasInstance fnB fnId (bindM h0 fnId ctx).heap x = false) := by
  obtain ⟨hb1, hb2, hb3, hb4⟩ := bindM_ids h0 fnId ctx
  refine ⟨?_, ?_, ?_⟩
  · rw [hb1]
    exact bindM_bound_hasInstance_prop h0 fnId ctx hfn
  · intro hobj
    unfold boundHasInstance
    rw [if_pos hobj]
  · intro hobj
    unfold boundHasInstance
    rw [if_neg (by rw [hobj]; exact Bool.false_ne_true)]

/-- Witness for C5 (amended) on the concrete heap: the method is installed,
and with fn.prototype the object id 1 the check delegates to the original's
instanceof relation. -/
theorem bind_hasInstance_spec_witness :
    ((bindM demoHeap 0 JSValue.undef).heap.get (bindM demoHeap 0 JSValue.undef).boundId).map
        (fun r => lookupKey r.props PropKey.symHasInstance)
      = some (some ⟨JSValue.undef, false, false, true⟩) ∧
    boundHasInstance demoFnB 0 (bindM demoHeap 0 JSValue.undef).heap (JSValue.obj 1)
      = demoFnB.hasInst (bindM demoHeap 0 JSValue.undef).heap (JSValue.obj 1) := by
  have h := bind_hasInstance_spec demoHeap 0 JSValue.undef demoFnB (JSValue.obj 1) (by decide)
  exact ⟨h.1, h.2.1 (by decide)⟩

/-- Counterexample for C6: on a function with no prototype property the
claim predicts the prototype setup is skipped entirely, so the wrapper's
prototype would remain its default prototype object (id 3 here); the code
still replaces it with the freshly allocated empty object id 5 (whose
prototype link is fNOP's untouched default prototype object, id 1). -/
theorem bind_prototype_counterexample :
    (bindM noProtoHeap 0 JSValue.undef).heap.getProp
        (bindM noProtoHeap 0 JSValue.undef).boundId (PropKey.str "prototype")
      = JSValue.obj 5 ∧
    (bindM noProtoHeap 0 JSValue.undef).heap.get 5 = some ⟨some 1, []⟩ ∧
    (5 : Nat) ≠ 3 := by
  refine ⟨by decide, by decide, by decide⟩

/-- C6 (amended): bind always replaces the wrapper's prototype property with
a freshly allocated empty object; when fn has a prototype object the fresh
object's own prototype link is fn.prototype, and the fresh object is never
fn.prototype itself (so mutating it leaves fn.prototype untouched); when fn
has no prototype property only the re-parenting onto fn.prototype is
skipped — the wrapper's prototype is still replaced by a fresh empty object
inheriting from fNOP's default prototype object. -/
theorem bind_prototype_fresh (h0 : Heap) (fnId fp : Nat) (ctx : JSValue)
    (hfn : fnId < h0.next) (hfp : fp < h0.next) :
    (h0.getProp fnId (PropKey.str "prototype") = JSValue.obj fp →
      (bindM h0 fnId ctx).heap.getProp (bindM h0 fnId ctx).boundId (PropKey.str "prototype")
        = JSValue.obj (bindM h0 fnId ctx).boundProtoId ∧
      (bindM h0 fnId ctx).heap.get (bindM h0 fnId ctx).boundProtoId = some ⟨some fp, []⟩ ∧
      (bindM h0 fnId ctx).boundProtoId ≠ fp ∧
      (∀ rec2, (((bindM h0 fnId ctx).heap.set (bindM h0 fnId ctx).boundProtoId rec2).get fp)
          = (bindM h0 fnId ctx).heap.get fp)) ∧
    (h0.getProp fnId (PropKey.str "prototype") = JSValue.undef →
      (bindM h0 fnId ctx).heap.getProp (bindM h0 fnId ctx).boundId (PropKey.str "prototype")
        = JSValue.obj (bindM h0 fnId ctx).boundProtoId ∧
      (bindM h0 fnId ctx).heap.get (bindM h0 fnId ctx).boundProtoId
        = some ⟨some h0.next, []⟩ ∧
      h0.next ≤ (bindM h0 fnId ctx).boundProtoId) := by
  obtain ⟨hb1, hb2, hb3, hb4⟩ := bindM_ids h0 fnId ctx
  have hbp : (bindM h0 fnId ctx).heap.getProp (bindM h0 fnId ctx).boundId
      (PropKey.str "prototype") = JSValue.obj (bindM h0 fnId ctx).boundProtoId := by
    rw [hb1, hb3]
    exact bindM_bound_prototype h0 fnId ctx hfn
  constructor
  · intro hpv
    refine ⟨hbp, by rw [hb3]; exact bindM_protoObj h0 fnId fp ctx hfn hpv, by omega, ?_⟩
    intro rec2
    exact Heap_get_set_ne _ _ _ _ (by omega)
  · intro hpv
    exact ⟨hbp, by rw [hb3]; exact bindM_protoUndef h0 fnId ctx hfn hpv, by omega⟩

/-- Witness for C6 (amended) on the concrete heap: the wrapper's prototype
is the fresh object id 6, whose own prototype link is fn.prototype (id 1)
and which is distinct from it. -/
theorem bind_prototype_fresh_witness :
    (bindM demoHeap 0 JSValue.undef).heap.getProp (bindM demoHeap 0 JSValue.undef).boundId
        (PropKey.str "prototype") = JSValue.obj (bindM demoHeap 0 JSValue.undef).boundProtoId ∧
    (bindM demoHeap 0 JSValue.undef).heap.get (bindM demoHeap 0 JSValue.undef).boundProtoId
      = some ⟨some 1, []⟩ ∧
    (bindM demoHeap 0 JSValue.undef).boundProtoId ≠ 1 := by
  have h := (bind_prototype_fresh demoHeap 0 1 JSValue.undef (by decide) (by decide)).1
    (by decide)
  exact ⟨h.1, h.2.1, h.2.2.1⟩

/-- C10: the wrapper dispatches on whether its receiver is an instance of
the wrapper (the installed instance check): for a receiver constructed
through the wrapper — here an object freshly re-parented onto the wrapper's
prototype object, as the construction branch leaves it — even a plain,
non-new invocation takes the construction branch (a new instance of fn is
constructed from the arguments, re-parented, and returned) and the result
does not depend on fn's context-forced call behaviour at all; forwarding to
fn with the captured context happens exactly when the receiver is not an
instance of the wrapper. -/
theorem bound_dispatch_on_instance (h0 : Heap) (fnId fp : Nat) (ctx : JSValue) (fnB : FnSpec)
    (args2 : List JSValue) (hC : Heap) (c : Nat)
    (hfn : fnId < h0.next) (hfp : fp < h0.next)
    (hproto : h0.getProp fnId (PropKey.str "prototype") = JSValue.obj fp)
    (hhi : ∀ h v, fnB.hasInst h v = ordinaryInstanceOf h v fp)
    (hex : (hC.get c).isSome = true)
    (hfn2 : hC.get fnId = (bindM h0 fnId ctx).heap.get fnId)
    (hP2 : hC.get (bindM h0 fnId ctx).boundProtoId
        = (bindM h0 fnId ctx).heap.get (bindM h0 fnId ctx).boundProtoId)
    (hcne1 : c ≠ fnId) (hcne2 : c ≠ (bindM h0 fnId ctx).boundProtoId)
    (hnext2 : 2 ≤ hC.next) :
    boundHasInstance fnB fnId (hC.setProto c (some (bindM h0 fnId ctx).boundProtoId))
        (JSValue.obj c) = true ∧
    boundCall fnB fnId (bindM h0 fnId ctx).boundId ctx
        (hC.setProto c (some (bindM h0 fnId ctx).boundProtoId)) (JSValue.obj c) args2
      = ((fnB.construct (hC.setProto c (some (bindM h0 fnId ctx).boundProtoId)) args2).1.setProto
           (fnB.construct (hC.setProto c (some (bindM h0 fnId ctx).boundProtoId)) args2).2
           (match (fnB.construct (hC.setProto c (some (bindM h0 fnId ctx).boundProtoId))
                args2).1.getProp (bindM h0 fnId ctx).boundId (PropKey.str "prototype") with
            | JSValue.obj i => some i
            | _ => none),
         JSValue.obj (fnB.construct (hC.setProto c (some (bindM h0 fnId ctx).boundProtoId))
            args2).2) ∧
    (∀ altCall,
      boundCall ⟨altCall, fnB.construct, fnB.hasInst⟩ fnId (bindM h0 fnId ctx).boundId ctx
          (hC.setProto c (some (bindM h0 fnId ctx).boundProtoId)) (JSValue.obj c) args2
        = boundCall fnB fnId (bindM h0 fnId ctx).boundId ctx
            (hC.setProto c (some (bindM h0 fnId ctx).boundProtoId)) (JSValue.obj c) args2) ∧
    (∀ x, boundHasInstance fnB fnId (hC.setProto c (some (bindM h0 fnId ctx).boundProtoId)) x
          = false →
      boundCall fnB fnId (bindM h0 fnId ctx).boundId ctx
          (hC.setProto c (some (bindM h0 fnId ctx).boundProtoId)) x args2
        = fnB.call (hC.setProto c (some (bindM h0 fnId ctx).boundProtoId)) ctx args2) := by
  obtain ⟨hb1, hb2, hb3, hb4⟩ := bindM_ids h0 fnId ctx
  have hget_fn : (bindM h0 fnId ctx).heap.get fnId = h0.get fnId := bindM_get_fn h0 fnId ctx hfn
  have hproto4 : (bindM h0 fnId ctx).heap.get (bindM h0 fnId ctx).boundProtoId
      = some ⟨some fp, []⟩ := by
    rw [hb3]
    exact bindM_protoObj h0 fnId fp ctx hfn hproto
  obtain ⟨r, hr⟩ := Option.isSome_iff_exists.1 hex
  have h2this : (hC.setProto c (some (bindM h0 fnId ctx).boundProtoId)).get c
      = some ⟨some (bindM h0 fnId ctx).boundProtoId, r.props⟩ :=
    Heap_get_setProto_self hC c _ r hr
  have h2fn : (hC.setProto c (some (bindM h0 fnId ctx).boundProtoId)).get fnId
      = hC.get fnId :=
    Heap_get_setProto_ne hC c fnId _ (Ne.symm hcne1)
  have h2P : (hC.setProto c (some (bindM h0 fnId ctx).boundProtoId)).get
      (bindM h0 fnId ctx).boundProtoId = hC.get (bindM h0 fnId ctx).boundProtoId :=
    Heap_get_setProto_ne hC c _ _ (Ne.symm hcne2)
  have h2next : (hC.setProto c (some (bindM h0 fnId ctx).boundProtoId)).next = hC.next :=
    Heap_setProto_next hC c _
  have hbi : boundHasInstance fnB fnId
      (hC.setProto c (some (bindM h0 fnId ctx).boundProtoId)) (JSValue.obj c) = true := by
    unfold boundHasInstance
    rw [getProp_congr _ _ fnId (PropKey.str "prototype") (h2fn.trans (hfn2.trans hget_fn)),
      hproto]
    simp only [isObjectValue, if_pos]
    rw [hhi]
    unfold ordinaryInstanceOf
    simp only []
    rw [h2this]
    refine protoChainContains_second _ _ _ _ (by omega) ?_
    rw [h2P, hP2, hproto4]
    rfl
  refine ⟨hbi, boundCall_construct_branch fnB fnId _ ctx _ _ args2 hbi, ?_, ?_⟩
  · intro altCall
    have hbi2 : boundHasInstance ⟨altCall, fnB.construct, fnB.hasInst⟩ fnId
        (hC.setProto c (some (bindM h0 fnId ctx).boundProtoId)) (JSValue.obj c) = true := hbi
    rw [boundCall_construct_branch ⟨altCall, fnB.construct, fnB.hasInst⟩ fnId
        (bindM h0 fnId ctx).boundId ctx _ _ args2 hbi2,
      boundCall_construct_branch fnB fnId (bindM h0 fnId ctx).boundId ctx _ _ args2 hbi]
  · intro x hx
    exact boundCall_call_branch fnB fnId _ ctx _ x args2 hx

/-- Witness for C10: the object constructed through the wrapper (id 8 on the
concrete heap) is recognised as an instance of the wrapper, so a plain call
with it as receiver dispatches to the construction branch. -/
theorem bound_dispatch_on_instance_witness :
    boundHasInstance demoFnB 0
        (((((bindM demoHeap 0 JSValue.undef).heap.alloc
            ⟨some (bindM demoHeap 0 JSValue.undef).boundProtoId, []⟩).1.alloc
            ⟨some 1, []⟩).1).setProto 8 (some (bindM demoHeap 0 JSValue.undef).boundProtoId))
        (JSValue.obj 8) = true := by
  have h := bound_dispatch_on_instance demoHeap 0 1 JSValue.undef demoFnB []
    (((bindM demoHeap 0 JSValue.undef).heap.alloc
        ⟨some (bindM demoHeap 0 JSValue.undef).boundProtoId, []⟩).1.alloc ⟨some 1, []⟩).1 8
    (by decide) (by decide) (by decide) (fun _ _ => rfl) (by decide) (by decide) (by decide)
    (by decide) (by decide) (by decide)
  exact h.1

end Garfish
